import Mathlib

/-!
Shallow embedding of `src/userproxy/websocket_manager.py` and
`src/userproxy/schemas.py` (the `userproxy` WebSocket connection hub).

Connections are identified by abstract tokens (`WS := Nat`, standing for the
`WebSocket` objects Python compares by object identity).  Python `dict`s are
embedded as association lists with Python's dict semantics: lookup finds the
binding, assignment replaces the value of an existing key in place (or appends
a new binding), and `pop` removes the binding.  JSON values decoded by
`json.loads` are embedded as the inductive `JVal`.  The side effects of the
`async` code (sending a frame on a connection, closing a connection) are
reified as an `Effect` trace returned by each operation; a send that the
transport rejects is modelled by a boolean failure oracle (heartbeat) or an
`Except` parameter (command forwarding, takeover close), mirroring exactly the
`try`/`except` structure of the source.
-/

/-- Abstract connection tokens (Python `WebSocket` objects, compared by
object identity). -/
abbrev WS := Nat

/-- JSON values as produced by `json.loads`. -/
inductive JVal where
  | null : JVal
  | bool (b : Bool) : JVal
  | num (n : Int) : JVal
  | str (s : String) : JVal
  | arr (elems : List JVal) : JVal
  | obj (fields : List (String × JVal)) : JVal

/-- A decoded JSON object (Python `dict` from `json.loads`). -/
abbrev JObj := List (String × JVal)

/-! ### Python `dict` operations on association lists -/

/-- `d.get(k)` / `d[k]`: value of the first binding of `k`. -/
def dGet {K V : Type} [DecidableEq K] : List (K × V) → K → Option V
  | [], _ => none
  | (k0, v0) :: t, k => if k = k0 then some v0 else dGet t k

/-- `d[k] = v`: replace the value of an existing binding in place, or append. -/
def dInsert {K V : Type} [DecidableEq K] : List (K × V) → K → V → List (K × V)
  | [], k, v => [(k, v)]
  | (k0, v0) :: t, k, v => if k = k0 then (k, v) :: t else (k0, v0) :: dInsert t k v

/-- `d.pop(k, None)`: remove the binding of `k`, if any. -/
def dPop {K V : Type} [DecidableEq K] : List (K × V) → K → List (K × V)
  | [], _ => []
  | (k0, v0) :: t, k => if k = k0 then t else (k0, v0) :: dPop t k

/-- The keys of a dict, in binding order. -/
def dKeys {K V : Type} : List (K × V) → List K
  | [] => []
  | (k, _) :: t => k :: dKeys t

/-- A dict binds each key at most once (always true of Python dicts). -/
def keysNodup {K V : Type} (l : List (K × V)) : Prop := (dKeys l).Nodup

theorem dGet_mem {K V : Type} [DecidableEq K] {l : List (K × V)} {k : K} {v : V}
    (h : dGet l k = some v) : (k, v) ∈ l := by
  induction l with
  | nil => simp [dGet] at h
  | cons hd t ih =>
      rcases hd with ⟨k0, v0⟩
      by_cases hk : k = k0
      · subst hk
        simp [dGet] at h
        subst h
        exact List.mem_cons_self _ _
      · simp [dGet, hk] at h
        exact List.mem_cons_of_mem _ (ih h)

theorem dGet_eq_none_of_not_mem_keys {K V : Type} [DecidableEq K]
    {l : List (K × V)} {k : K} (h : k ∉ dKeys l) : dGet l k = none := by
  induction l with
  | nil => rfl
  | cons hd t ih =>
      rcases hd with ⟨k0, v0⟩
      simp [dKeys] at h
      simp [dGet, h.1, ih (by simp [dKeys, h.2])]

theorem dGet_dInsert_self {K V : Type} [DecidableEq K]
    (l : List (K × V)) (k : K) (v : V) : dGet (dInsert l k v) k = some v := by
  induction l with
  | nil => simp [dInsert, dGet]
  | cons hd t ih =>
      rcases hd with ⟨k0, v0⟩
      by_cases hk : k = k0
      · simp [dInsert, hk, dGet]
      · simp [dInsert, hk, dGet, ih]

theorem dGet_dInsert_ne {K V : Type} [DecidableEq K]
    {l : List (K × V)} {k k' : K} (v : V) (h : k' ≠ k) :
    dGet (dInsert l k v) k' = dGet l k' := by
  induction l with
  | nil => simp [dInsert, dGet, h]
  | cons hd t ih =>
      rcases hd with ⟨k0, v0⟩
      by_cases hk : k = k0
      · subst hk
        simp [dInsert, dGet, h]
      · by_cases hk' : k' = k0
        · simp [dInsert, hk, dGet, hk']
        · simp [dInsert, hk, dGet, hk', ih]

theorem dGet_dPop_ne {K V : Type} [DecidableEq K]
    {l : List (K × V)} {k k' : K} (h : k' ≠ k) :
    dGet (dPop l k) k' = dGet l k' := by
  induction l with
  | nil => rfl
  | cons hd t ih =>
      rcases hd with ⟨k0, v0⟩
      by_cases hk : k = k0
      · subst hk
        simp [dPop, dGet, h]
      · by_cases hk' : k' = k0
        · simp [dPop, hk, dGet, hk']
        · simp [dPop, hk, dGet, hk', ih]

theorem mem_keys_dPop {K V : Type} [DecidableEq K]
    {l : List (K × V)} {k x : K} (h : x ∈ dKeys (dPop l k)) : x ∈ dKeys l := by
  induction l with
  | nil => simpa [dPop] using h
  | cons hd t ih =>
      rcases hd with ⟨k0, v0⟩
      by_cases hk : k = k0
      · simp [dPop, hk, dKeys] at h ⊢
        exact Or.inr h
      · simp [dPop, hk, dKeys] at h ⊢
        rcases h with h | h
        · exact Or.inl h
        · exact Or.inr (ih (by simpa [dKeys] using h))

theorem dGet_dPop_self {K V : Type} [DecidableEq K]
    {l : List (K × V)} {k : K} (h : keysNodup l) : dGet (dPop l k) k = none := by
  induction l with
  | nil => rfl
  | cons hd t ih =>
      rcases hd with ⟨k0, v0⟩
      by_cases hk : k = k0
      · subst hk
        simp [keysNodup, dKeys] at h
        simp [dPop]
        exact dGet_eq_none_of_not_mem_keys (by simpa [dKeys] using h.1)
      · simp [keysNodup, dKeys] at h
        simp [dPop, hk, dGet, hk, ih h.2]

theorem mem_keys_dInsert {K V : Type} [DecidableEq K]
    {l : List (K × V)} {k x : K} {v : V}
    (h : x ∈ dKeys (dInsert l k v)) : x = k ∨ x ∈ dKeys l := by
  induction l with
  | nil => simpa [dInsert, dKeys] using h
  | cons hd t ih =>
      rcases hd with ⟨k0, v0⟩
      by_cases hk : k = k0
      · subst hk
        simp only [dInsert, if_pos] at h
        simp only [dKeys] at h
        rcases List.mem_cons.mp h with h | h
        · exact Or.inl h
        · exact Or.inr (by simp only [dKeys]; exact List.mem_cons_of_mem _ h)
      · simp only [dInsert] at h
        simp only [if_neg hk] at h
        simp only [dKeys] at h
        rcases List.mem_cons.mp h with h | h
        · exact Or.inr (by simp only [dKeys]; exact h ▸ List.mem_cons_self _ _)
        · rcases ih h with h' | h'
          · exact Or.inl h'
          · exact Or.inr (by simp only [dKeys]; exact List.mem_cons_of_mem _ h')

theorem keysNodup_dInsert {K V : Type} [DecidableEq K]
    {l : List (K × V)} (k : K) (v : V) (h : keysNodup l) :
    keysNodup (dInsert l k v) := by
  induction l with
  | nil => simp [dInsert, keysNodup, dKeys]
  | cons hd t ih =>
      rcases hd with ⟨k0, v0⟩
      simp [keysNodup, dKeys] at h
      by_cases hk : k = k0
      · subst hk
        simpa [dInsert, keysNodup, dKeys] using h
      · have ht := ih h.2
        simp [dInsert, hk, keysNodup, dKeys]
        refine ⟨fun hmem => ?_, ht⟩
        rcases mem_keys_dInsert (by simpa [dKeys] using hmem) with h' | h'
        · exact hk (h'.symm)
        · exact h.1 (by simpa [dKeys] using h')

theorem keysNodup_dPop {K V : Type} [DecidableEq K]
    {l : List (K × V)} (k : K) (h : keysNodup l) : keysNodup (dPop l k) := by
  induction l with
  | nil => simpa [dPop] using h
  | cons hd t ih =>
      rcases hd with ⟨k0, v0⟩
      simp [keysNodup, dKeys] at h
      by_cases hk : k = k0
      · simpa [dPop, hk, keysNodup, dKeys] using h.2
      · simp [dPop, hk, keysNodup, dKeys]
        exact ⟨fun hmem => h.1 (mem_keys_dPop (by simpa [dKeys] using hmem)),
               ih h.2⟩

theorem mem_dKeys_of_mem {K V : Type} {l : List (K × V)} {k : K} {v : V}
    (h : (k, v) ∈ l) : k ∈ dKeys l := by
  induction l with
  | nil => simp at h
  | cons hd t ih =>
      rcases hd with ⟨k0, v0⟩
      rw [dKeys]
      rcases List.mem_cons.mp h with h | h
      · rw [Prod.mk.injEq] at h
        exact h.1 ▸ List.mem_cons_self _ _
      · exact List.mem_cons_of_mem _ (ih h)

theorem dGet_eq_some_of_mem {K V : Type} [DecidableEq K]
    {l : List (K × V)} {k : K} {v : V} (hnd : keysNodup l) (h : (k, v) ∈ l) :
    dGet l k = some v := by
  induction l with
  | nil => simp at h
  | cons hd t ih =>
      rcases hd with ⟨k0, v0⟩
      rw [keysNodup, dKeys, List.nodup_cons] at hnd
      rcases List.mem_cons.mp h with h | h
      · rw [Prod.mk.injEq] at h
        simp [dGet, h.1, h.2]
      · have hk : k ≠ k0 := fun hkk => hnd.1 (hkk ▸ mem_dKeys_of_mem h)
        simp [dGet, hk, ih hnd.2 h]

/-! ### Message envelopes (`schemas.py`)

Validated pydantic models.  A `timestamp` is kept as the original wire value
(`none` stands for the `default_factory=datetime.now` value generated when the
field is absent); pydantic accepts a string or a number there.  Optional
string fields accept a JSON string or `null`. -/

/-- The values of the `MessageType` enum. -/
def messageTypeValues : List String :=
  ["ping", "pong", "command", "data", "client_id", "error"]

/-- Validated `CommandMessage` (required `client_id`, `receiver`, `command`;
optional `data`, `request_id`; `type` defaults to `"command"`). -/
structure CommandMessage where
  type : String
  client_id : String
  receiver : String
  command : String
  data : Option JVal
  timestamp : Option JVal
  request_id : Option String

/-- Validated `CommandResultMessage` (required `client_id`, `receiver`,
`request_id`, `success`; optional `result`, `error`). -/
structure CommandResultMessage where
  type : String
  client_id : String
  receiver : String
  request_id : String
  success : Bool
  result : Option JVal
  error : Option String
  timestamp : Option JVal

/-- Validated `DataMessage`. -/
structure DataMessage where
  type : String
  client_id : String
  receiver : String
  data : String
  chunk_index : Int
  total_chunks : Int
  timestamp : Option JVal
  is_final : Bool

/-- `data.get(k)` on a decoded JSON object. -/
def jGet (fields : JObj) (k : String) : Option JVal := dGet fields k

/-- `k in data` (key membership, regardless of the value, even `null`). -/
def hasKey (fields : JObj) (k : String) : Bool := (jGet fields k).isSome

/-- A required `str` field: pydantic accepts only a JSON string. -/
def fieldStr (v : Option JVal) : Option String :=
  match v with
  | some (JVal.str s) => some s
  | _ => none

/-- An `Optional[str]` field: absent and `null` become `None`. -/
def fieldOptStr (v : Option JVal) : Option (Option String) :=
  match v with
  | none => some none
  | some JVal.null => some none
  | some (JVal.str s) => some (some s)
  | _ => none

/-- An `Optional[Dict]` field: absent and `null` become `None`. -/
def fieldOptDict (v : Option JVal) : Option (Option JVal) :=
  match v with
  | none => some none
  | some JVal.null => some none
  | some (JVal.obj f) => some (some (JVal.obj f))
  | _ => none

/-- A `MessageType` field with a default: absent takes the default, a string
must be one of the enum values. -/
def fieldType (dflt : Option String) (v : Option JVal) : Option String :=
  match v with
  | none => dflt
  | some (JVal.str s) => if s ∈ messageTypeValues then some s else none
  | _ => none

/-- A `datetime` field with `default_factory`: absent is allowed (the factory
runs, represented as `none`); pydantic parses a string or a number. -/
def fieldTimestamp (v : Option JVal) : Option (Option JVal) :=
  match v with
  | none => some none
  | some (JVal.str s) => some (some (JVal.str s))
  | some (JVal.num n) => some (some (JVal.num n))
  | _ => none

/-- A required `bool` field. -/
def fieldBool (v : Option JVal) : Option Bool :=
  match v with
  | some (JVal.bool b) => some b
  | _ => none

/-- An `int` field with a default. -/
def fieldInt (dflt : Int) (v : Option JVal) : Option Int :=
  match v with
  | none => some dflt
  | some (JVal.num n) => some n
  | _ => none

/-- A `bool` field with a default. -/
def fieldBoolD (dflt : Bool) (v : Option JVal) : Option Bool :=
  match v with
  | none => some dflt
  | some (JVal.bool b) => some b
  | _ => none

/-- `CommandMessage.model_validate(data)`. -/
def validateCommand (data : JObj) : Option CommandMessage := do
  let ty ← fieldType (some "command") (jGet data "type")
  let cid ← fieldStr (jGet data "client_id")
  let recv ← fieldStr (jGet data "receiver")
  let cmd ← fieldStr (jGet data "command")
  let d ← fieldOptDict (jGet data "data")
  let ts ← fieldTimestamp (jGet data "timestamp")
  let rid ← fieldOptStr (jGet data "request_id")
  pure ⟨ty, cid, recv, cmd, d, ts, rid⟩

/-- `CommandResultMessage.model_validate(data)`. -/
def validateCommandResult (data : JObj) : Option CommandResultMessage := do
  let ty ← fieldType (some "command") (jGet data "type")
  let cid ← fieldStr (jGet data "client_id")
  let recv ← fieldStr (jGet data "receiver")
  let rid ← fieldStr (jGet data "request_id")
  let succ ← fieldBool (jGet data "success")
  let res ← fieldOptDict (jGet data "result")
  let err ← fieldOptStr (jGet data "error")
  let ts ← fieldTimestamp (jGet data "timestamp")
  pure ⟨ty, cid, recv, rid, succ, res, err, ts⟩

/-- `PingPongMessage.model_validate(data)` (`type` is required). -/
def validatePingPong (data : JObj) : Option (String × Option String) := do
  let ty ← fieldType none (jGet data "type")
  let ts ← fieldTimestamp (jGet data "timestamp")
  let cid ← fieldOptStr (jGet data "client_id")
  let _ := ts
  pure (ty, cid)

/-- `ClientIdMessage.model_validate(data)` (`client_id` is required). -/
def validateClientIdMessage (data : JObj) : Option String := do
  let ty ← fieldType (some "client_id") (jGet data "type")
  let cid ← fieldStr (jGet data "client_id")
  let ts ← fieldTimestamp (jGet data "timestamp")
  let _ := ty
  let _ := ts
  pure cid

/-- `DataMessage.model_validate(data)`. -/
def validateDataMessage (data : JObj) : Option DataMessage := do
  let ty ← fieldType (some "data") (jGet data "type")
  let cid ← fieldStr (jGet data "client_id")
  let recv ← fieldStr (jGet data "receiver")
  let d ← fieldStr (jGet data "data")
  let ci ← fieldInt 0 (jGet data "chunk_index")
  let tc ← fieldInt 1 (jGet data "total_chunks")
  let ts ← fieldTimestamp (jGet data "timestamp")
  let fin ← fieldBoolD false (jGet data "is_final")
  pure ⟨ty, cid, recv, d, ci, tc, ts, fin⟩

/-! ### Outbound messages and effects -/

/-- An outbound frame, at the envelope level (`model_dump(mode='json')` of the
corresponding pydantic model, or the ad hoc dicts the dispatcher sends). -/
inductive Msg where
  /-- `ClientIdMessage(client_id=...)` sent after registration. -/
  | clientId (client_id : String) : Msg
  /-- `PingPongMessage(type=..., client_id=...)`. -/
  | pingPong (type : String) (client_id : Option String) : Msg
  /-- A forwarded `CommandMessage` envelope. -/
  | command (m : CommandMessage) : Msg
  /-- A `CommandResultMessage` envelope (forwarded or synthesized). -/
  | commandResult (m : CommandResultMessage) : Msg
  /-- The ad hoc dict `{"type": "error", "detail": ...}`. -/
  | errorDetail (detail : String) : Msg
  /-- The fallback response of `_handle_undefined_message`:
  `{"type": "error", "detail": f"未定义的消息类型: {message_type}",
  "supported_types": [...], "original_message": data}`. -/
  | undefinedError (message_type : JVal) (supported_types : List String)
      (original_message : JVal) : Msg

/-- Observable transport actions, in program order. -/
inductive Effect where
  /-- `websocket.send_json(...)` that succeeds. -/
  | send (ws : WS) (msg : Msg) : Effect
  /-- `websocket.send_json(...)` that raises (heartbeat probe of a dead
  connection). -/
  | sendFailed (ws : WS) (msg : Msg) : Effect
  /-- `websocket.close()`. -/
  | close (ws : WS) : Effect

/-! ### The connection manager (`ConnectionManager`) -/

/-- The mutable state of `ConnectionManager`: the list of live connections,
the two registry views, and whether the heartbeat task is running (the
`ping_task` field; the handler table is a fixed separate argument below, since
registration happens once at import time). -/
structure ConnectionManager where
  active_connections : List WS
  client_map : List (String × WS)
  ws_to_id : List (WS × String)
  ping_task_running : Bool

/-- `ConnectionManager()`: the initial, empty manager. -/
def initManager : ConnectionManager := ⟨[], [], [], false⟩

/-- The common tail of `ConnectionManager.connect` (lines 113-123): append to
`active_connections`, bind both views, send the `client_id` envelope, and
start the ping task on the 0→1 transition. -/
def bindConn (s : ConnectionManager) (websocket : WS) (client_id : String) :
    ConnectionManager :=
  let active := s.active_connections ++ [websocket]
  { active_connections := active
    client_map := dInsert s.client_map client_id websocket
    ws_to_id := dInsert s.ws_to_id websocket client_id
    ping_task_running :=
      if active.length = 1 then true else s.ping_task_running }

/-- `ConnectionManager.connect(websocket, client_id)`.  `freshId` is the
`uuid.uuid4()` string generated when `client_id is None`.  `closeResult`
is the outcome of `await old_websocket.close()` during a takeover; the source
wraps that call in `try: ... except Exception: pass`, so the result is
discarded (the state and the remaining effects do not depend on it).
Returns the new state, the bound identity, and the effect trace. -/
def connect (s : ConnectionManager) (websocket : WS) (client_id? : Option String)
    (freshId : String) (closeResult : Except String Unit) :
    ConnectionManager × String × List Effect :=
  match client_id? with
  | none =>
      (bindConn s websocket freshId, freshId,
        [Effect.send websocket (Msg.clientId freshId)])
  | some cid =>
      match dGet s.client_map cid with
      | some old =>
          -- take over: drop the old connection from the active list and the
          -- reverse view, close it (failures swallowed), then bind the new one
          let s1 : ConnectionManager :=
            { s with active_connections := s.active_connections.erase old
                     ws_to_id := dPop s.ws_to_id old }
          let _ := closeResult
          (bindConn s1 websocket cid, cid,
            [Effect.close old, Effect.send websocket (Msg.clientId cid)])
      | none =>
          (bindConn s websocket cid, cid,
            [Effect.send websocket (Msg.clientId cid)])

/-- `ConnectionManager.disconnect(websocket)`: remove the connection from the
active list, drop both registry views when the connection had a (truthy)
identity, and stop the ping task on the transition to zero connections.
(`if client_id:` in the source is Python truthiness, hence the empty-string
check.) -/
def disconnect (s : ConnectionManager) (websocket : WS) : ConnectionManager :=
  match dGet s.ws_to_id websocket with
  | some cid =>
      if cid = "" then
        { active_connections := s.active_connections.erase websocket
          client_map := s.client_map
          ws_to_id := s.ws_to_id
          ping_task_running :=
            if (s.active_connections.erase websocket).length = 0 then false
            else s.ping_task_running }
      else
        { active_connections := s.active_connections.erase websocket
          client_map := dPop s.client_map cid
          ws_to_id := dPop s.ws_to_id websocket
          ping_task_running :=
            if (s.active_connections.erase websocket).length = 0 then false
            else s.ping_task_running }
  | none =>
      { active_connections := s.active_connections.erase websocket
        client_map := s.client_map
        ws_to_id := s.ws_to_id
        ping_task_running :=
          if (s.active_connections.erase websocket).length = 0 then false
          else s.ping_task_running }

/-- `ConnectionManager._send_ping_to_all()`.  `sendFails` tells which
connections' `send_json` raises.  A ping envelope is sent (or attempted) to
every connection in the snapshot, with the identity each has at iteration
time; the dead connections are collected and disconnected only after the full
iteration. -/
def sendPingToAll (s : ConnectionManager) (sendFails : WS → Bool) :
    ConnectionManager × List Effect :=
  if s.active_connections.isEmpty then (s, [])
  else
    let effects := s.active_connections.map (fun ws =>
      let msg := Msg.pingPong "ping" (dGet s.ws_to_id ws)
      if sendFails ws then Effect.sendFailed ws msg else Effect.send ws msg)
    let dead := s.active_connections.filter sendFails
    (dead.foldl disconnect s, effects)

/-! ### Message handlers (`websocket_manager.py` lines 253-375) -/

/-- Python `x or d` on an `Optional[str]`: `None` and the empty string are
falsy, so both are replaced by the default. -/
def pyOr (x : Option String) (d : String) : String :=
  match x with
  | none => d
  | some s => if s = "" then d else s

/-- Stand-in for `str(e)` of a pydantic `ValidationError` (its exact text is
produced by the pydantic library and carries no information the code inspects;
every claim treats it as opaque). -/
def validation_error_text : String := "validation error"

/-- The detail of the `{"type": "error", ...}` reply sent on a schema
validation failure: `f"消息格式错误: {str(e)}"`. -/
def formatErrorDetail : String := "消息格式错误: " ++ validation_error_text

/-- A message handler: takes the manager state, the decoded object, the
originating connection and the context identity (`context["client_id"]`);
returns either the new state with the effect trace, or the text of an
exception that escapes the handler (to be caught by the dispatcher). -/
abbrev Handler :=
  ConnectionManager → JObj → WS → Option String →
    Except String (ConnectionManager × List Effect)

/-- `client_id_handler`: validates and logs; never sends, never mutates
(`except ValidationError` only logs). -/
def client_id_handler : Handler := fun mgr data _ _ =>
  match validateClientIdMessage data with
  | some _ => Except.ok (mgr, [])
  | none => Except.ok (mgr, [])

/-- `ping_handler`: on a valid ping, reply to the sender with a pong carrying
the context identity; on validation failure, send a format-error envelope. -/
def ping_handler : Handler := fun mgr data websocket ctx_client_id =>
  match validatePingPong data with
  | some _ =>
      Except.ok (mgr, [Effect.send websocket (Msg.pingPong "pong" ctx_client_id)])
  | none =>
      Except.ok (mgr, [Effect.send websocket (Msg.errorDetail formatErrorDetail)])

/-- `pong_handler`: validates and logs; sends nothing in either branch. -/
def pong_handler : Handler := fun mgr data _ _ =>
  match validatePingPong data with
  | some _ => Except.ok (mgr, [])
  | none => Except.ok (mgr, [])

/-- The `CommandResultMessage` synthesized when a command's receiver is
missing (lines 325-332): `receiver` is the command's `client_id` field,
`request_id` is `validated_message.request_id or "default"`, and the
command's timestamp is carried over. -/
def missingReceiverResult (ctx_client_id : String) (vm : CommandMessage) :
    CommandResultMessage :=
  { type := "command"
    client_id := ctx_client_id
    receiver := vm.client_id
    request_id := pyOr vm.request_id "default"
    success := false
    result := none
    error := some ("接收者 '" ++ vm.receiver ++ "' 不存在")
    timestamp := vm.timestamp }

/-- The `CommandResultMessage` synthesized when forwarding raises `e`
(lines 342-349). -/
def forwardFailedResult (ctx_client_id : String) (vm : CommandMessage)
    (e : String) : CommandResultMessage :=
  { type := "command"
    client_id := ctx_client_id
    receiver := vm.client_id
    request_id := pyOr vm.request_id "default"
    success := false
    result := none
    error := some ("转发命令失败: " ++ e)
    timestamp := vm.timestamp }

/-- `command_handler`, parametrized by the outcome of the one guarded send
(`await receiver_websocket.send_json(...)`, lines 337-338 — the only send the
handler wraps in its own `try`).  Dispatch on the presence of a `success`
field: results are forwarded if their receiver is registered and silently
dropped otherwise; commands are forwarded verbatim, or answered with a
synthesized failure result when the receiver is missing.  Constructing that
result with `client_id=None` (an unregistered sender) raises
`ValidationError`, which the handler's own `except ValidationError` turns
into a format-error reply. -/
def command_handler (mgr : ConnectionManager) (data : JObj) (websocket : WS)
    (ctx_client_id : Option String) (forwardResult : Except String Unit) :
    Except String (ConnectionManager × List Effect) :=
  if hasKey data "success" then
    match validateCommandResult data with
    | some vm =>
        match dGet mgr.client_map vm.receiver with
        | some target =>
            Except.ok (mgr, [Effect.send target (Msg.commandResult vm)])
        | none => Except.ok (mgr, [])   -- log only: silent drop
    | none =>
        Except.ok (mgr, [Effect.send websocket (Msg.errorDetail formatErrorDetail)])
  else
    match validateCommand data with
    | some vm =>
        match dGet mgr.client_map vm.receiver with
        | none =>
            match ctx_client_id with
            | some cid =>
                Except.ok (mgr,
                  [Effect.send websocket
                    (Msg.commandResult (missingReceiverResult cid vm))])
            | none =>
                -- CommandResultMessage(client_id=None, ...) raises
                -- ValidationError, caught by the handler's own except clause
                Except.ok (mgr,
                  [Effect.send websocket (Msg.errorDetail formatErrorDetail)])
        | some receiver_websocket =>
            match forwardResult with
            | Except.ok _ =>
                Except.ok (mgr,
                  [Effect.send receiver_websocket (Msg.command vm)])
            | Except.error e =>
                match ctx_client_id with
                | some cid =>
                    Except.ok (mgr,
                      [Effect.sendFailed receiver_websocket (Msg.command vm),
                       Effect.send websocket
                         (Msg.commandResult (forwardFailedResult cid vm e))])
                | none =>
                    Except.ok (mgr,
                      [Effect.sendFailed receiver_websocket (Msg.command vm),
                       Effect.send websocket (Msg.errorDetail formatErrorDetail)])
    | none =>
        Except.ok (mgr, [Effect.send websocket (Msg.errorDetail formatErrorDetail)])

/-- `data_handler`: validate only; an error envelope on failure, nothing on
success (chunks are not reassembled or forwarded). -/
def data_handler : Handler := fun mgr data websocket _ =>
  match validateDataMessage data with
  | some _ => Except.ok (mgr, [])
  | none =>
      Except.ok (mgr, [Effect.send websocket (Msg.errorDetail formatErrorDetail)])

/-- The handler table built by the five `@manager.handler(...)` registrations,
in registration order.  The `command` entry closes over a successful forward
send; the claims about forward failure are stated on `command_handler`
directly. -/
def registeredHandlers : List (String × Handler) :=
  [("client_id", client_id_handler),
   ("ping", ping_handler),
   ("pong", pong_handler),
   ("command", fun mgr data ws ctx => command_handler mgr data ws ctx (Except.ok ())),
   ("data", data_handler)]

/-! ### The dispatcher (`ConnectionManager.handle_message`) -/

/-- The Python type name of a decoded JSON value, as it appears in
`AttributeError`/`TypeError` texts. -/
def pyTypeName : JVal → String
  | JVal.null => "NoneType"
  | JVal.bool _ => "bool"
  | JVal.num _ => "int"
  | JVal.str _ => "str"
  | JVal.arr _ => "list"
  | JVal.obj _ => "dict"

/-- `str(e)` for the `AttributeError` raised by `data.get("type")` when
`json.loads` returned a non-dict. -/
def attrErrorText (v : JVal) : String :=
  "'" ++ pyTypeName v ++ "' object has no attribute 'get'"

/-- `str(e)` for the `TypeError` raised by `self.handlers.get(message_type)`
when the `type` value is unhashable (a list or a dict). -/
def unhashableErrorText (v : JVal) : String :=
  "unhashable type: '" ++ pyTypeName v ++ "'"

/-- One inbound text frame, classified by the outcome of `json.loads`:
the text did not parse (`json.JSONDecodeError`), parsed to a non-object
value, or parsed to an object. -/
inductive Frame where
  | decodeError (raw : String) : Frame
  | nonObject (v : JVal) : Frame
  | object (fields : JObj) : Frame

/-- `ConnectionManager._handle_undefined_message(data, websocket, context)`:
the fallback error envelope, naming `data.get("type", "unknown")` and
enumerating the registered kinds. -/
def handleUndefinedMessage (handlers : List (String × Handler)) (data : JObj) :
    Msg :=
  Msg.undefinedError ((jGet data "type").getD (JVal.str "unknown"))
    (dKeys handlers) (JVal.obj data)

/-- `self.handlers.get(message_type)`: only a string key can be bound. -/
def handlerLookup (handlers : List (String × Handler)) (mt : Option JVal) :
    Option Handler :=
  match mt with
  | some (JVal.str s) => dGet handlers s
  | _ => none

/-- Is the `type` value unhashable in Python (so that `handlers.get` raises
`TypeError`)? -/
def typeUnhashable (mt : Option JVal) : Bool :=
  match mt with
  | some (JVal.arr _) => true
  | some (JVal.obj _) => true
  | _ => false

/-- `ConnectionManager.handle_message(message, websocket)`.  The context
identity is looked up in `ws_to_id` before dispatch.  An undecodable frame is
wrapped as `{"raw_message": message}` and routed to the fallback; a frame
whose decoded value is not a dict raises `AttributeError` at
`data.get("type")`, caught by the outer `except Exception` as a plain error
envelope; an unhashable `type` value raises `TypeError` at `handlers.get`,
caught the same way; otherwise the bound handler runs, its exceptions caught
and converted to an error envelope, and an unbound kind goes to the
fallback. -/
def handle_message (s : ConnectionManager)
    (handlers : List (String × Handler)) (frame : Frame) (websocket : WS) :
    ConnectionManager × List Effect :=
  let client_id := dGet s.ws_to_id websocket
  match frame with
  | Frame.decodeError raw =>
      (s, [Effect.send websocket
            (handleUndefinedMessage handlers [("raw_message", JVal.str raw)])])
  | Frame.nonObject v =>
      (s, [Effect.send websocket (Msg.errorDetail (attrErrorText v))])
  | Frame.object fields =>
      let mt := jGet fields "type"
      if typeUnhashable mt then
        (s, [Effect.send websocket
              (Msg.errorDetail (unhashableErrorText (mt.getD JVal.null)))])
      else
        match handlerLookup handlers mt with
        | some h =>
            match h s fields websocket client_id with
            | Except.ok r => r
            | Except.error e =>
                (s, [Effect.send websocket (Msg.errorDetail e)])
        | none =>
            (s, [Effect.send websocket (handleUndefinedMessage handlers fields)])

/-! ### The registry invariant (claim C1) -/

/-- The registry invariant: the two views are mutual inverses, every bound
connection is live, identities are truthy strings, the dicts are genuine
dicts (no duplicate keys) and the live list has no duplicates. -/
structure RegistryInv (s : ConnectionManager) : Prop where
  cm_wti : ∀ cid ws, dGet s.client_map cid = some ws →
    dGet s.ws_to_id ws = some cid
  wti_cm : ∀ ws cid, dGet s.ws_to_id ws = some cid →
    dGet s.client_map cid = some ws
  wti_active : ∀ ws cid, dGet s.ws_to_id ws = some cid →
    ws ∈ s.active_connections
  id_truthy : ∀ ws cid, dGet s.ws_to_id ws = some cid → cid ≠ ""
  cm_nodup : keysNodup s.client_map
  wti_nodup : keysNodup s.ws_to_id
  active_nodup : s.active_connections.Nodup

/-- One transition of the manager, as driven by the endpoints: an anonymous
connect (`/ws`, with a fresh `uuid4` identity), a reconnect with a supplied
identity (`/ws/{client_id}`, a non-empty path segment), a disconnect, and one
heartbeat cycle.  The freshness hypotheses state that the transport hands the
endpoint a new `WebSocket` object and that `uuid4` does not collide. -/
inductive Step : ConnectionManager → ConnectionManager → Prop where
  | connect_fresh (s : ConnectionManager) (ws : WS) (freshId : String)
      (c : Except String Unit)
      (h1 : ws ∉ s.active_connections) (h2 : dGet s.ws_to_id ws = none)
      (h3 : dGet s.client_map freshId = none) (h4 : freshId ≠ "") :
      Step s (connect s ws none freshId c).1
  | connect_with_id (s : ConnectionManager) (ws : WS) (cid : String)
      (c : Except String Unit)
      (h1 : ws ∉ s.active_connections) (h2 : dGet s.ws_to_id ws = none)
      (h3 : cid ≠ "") :
      Step s (connect s ws (some cid) "" c).1
  | disconnect_any (s : ConnectionManager) (ws : WS) :
      Step s (disconnect s ws)
  | heartbeat (s : ConnectionManager) (sendFails : WS → Bool) :
      Step s (sendPingToAll s sendFails).1

/-- The states the manager can reach from `ConnectionManager()`. -/
inductive Reachable : ConnectionManager → Prop where
  | init : Reachable initManager
  | step {s t : ConnectionManager} :
      Reachable s → Step s t → Reachable t

theorem inv_bind_unbound {s : ConnectionManager} {ws : WS} {cid : String}
    (hs : RegistryInv s) (h1 : ws ∉ s.active_connections)
    (h2 : dGet s.ws_to_id ws = none) (h3 : dGet s.client_map cid = none)
    (h4 : cid ≠ "") : RegistryInv (bindConn s ws cid) := by
  constructor
  · intro c w h
    by_cases hc : c = cid
    · subst hc
      rw [show dGet (bindConn s ws c).client_map c = some ws from
            dGet_dInsert_self _ _ _] at h
      cases h
      exact dGet_dInsert_self _ _ _
    · rw [show (bindConn s ws cid).client_map = dInsert s.client_map cid ws
            from rfl, dGet_dInsert_ne _ hc] at h
      have hw : w ≠ ws := by
        intro hww
        subst hww
        rw [hs.cm_wti c w h] at h2
        cases h2
      rw [show (bindConn s ws cid).ws_to_id = dInsert s.ws_to_id ws cid
            from rfl, dGet_dInsert_ne _ hw]
      exact hs.cm_wti c w h
  · intro w c h
    by_cases hw : w = ws
    · subst hw
      rw [show dGet (bindConn s w cid).ws_to_id w = some cid from
            dGet_dInsert_self _ _ _] at h
      cases h
      exact dGet_dInsert_self _ _ _
    · rw [show (bindConn s ws cid).ws_to_id = dInsert s.ws_to_id ws cid
            from rfl, dGet_dInsert_ne _ hw] at h
      have hc : c ≠ cid := by
        intro hcc
        subst hcc
        rw [hs.wti_cm w c h] at h3
        cases h3
      rw [show (bindConn s ws cid).client_map = dInsert s.client_map cid ws
            from rfl, dGet_dInsert_ne _ hc]
      exact hs.wti_cm w c h
  · intro w c h
    show w ∈ s.active_connections ++ [ws]
    by_cases hw : w = ws
    · subst hw
      exact List.mem_append_right _ (List.mem_singleton.mpr rfl)
    · rw [show (bindConn s ws cid).ws_to_id = dInsert s.ws_to_id ws cid
            from rfl, dGet_dInsert_ne _ hw] at h
      exact List.mem_append_left _ (hs.wti_active w c h)
  · intro w c h
    by_cases hw : w = ws
    · subst hw
      rw [show dGet (bindConn s w cid).ws_to_id w = some cid from
            dGet_dInsert_self _ _ _] at h
      cases h
      exact h4
    · rw [show (bindConn s ws cid).ws_to_id = dInsert s.ws_to_id ws cid
            from rfl, dGet_dInsert_ne _ hw] at h
      exact hs.id_truthy w c h
  · exact keysNodup_dInsert _ _ hs.cm_nodup
  · exact keysNodup_dInsert _ _ hs.wti_nodup
  · show (s.active_connections ++ [ws]).Nodup
    rw [List.nodup_append]
    exact ⟨hs.active_nodup, List.nodup_singleton _,
      by intro a ha hb; rw [List.mem_singleton] at hb; subst hb; exact h1 ha⟩

theorem inv_bind_takeover {s : ConnectionManager} {ws old : WS} {cid : String}
    (hs : RegistryInv s) (hold : dGet s.client_map cid = some old)
    (h1 : ws ∉ s.active_connections) (h2 : dGet s.ws_to_id ws = none)
    (h3 : cid ≠ "") :
    RegistryInv (bindConn
      { s with active_connections := s.active_connections.erase old,
               ws_to_id := dPop s.ws_to_id old } ws cid) := by
  have hold_wti : dGet s.ws_to_id old = some cid := hs.cm_wti cid old hold
  have hold_ne : old ≠ ws := by
    intro h
    rw [h, h2] at hold_wti
    cases hold_wti
  constructor
  · intro c w h
    have h' : dGet (dInsert s.client_map cid ws) c = some w := h
    show dGet (dInsert (dPop s.ws_to_id old) ws cid) w = some c
    by_cases hc : c = cid
    · subst hc
      rw [dGet_dInsert_self] at h'
      cases h'
      exact dGet_dInsert_self _ _ _
    · rw [dGet_dInsert_ne _ hc] at h'
      have hw : w ≠ ws := by
        intro hww
        subst hww
        rw [hs.cm_wti c w h'] at h2
        cases h2
      have hwold : w ≠ old := by
        intro hww
        subst hww
        rw [hs.cm_wti c w h'] at hold_wti
        cases hold_wti
        exact hc rfl
      rw [dGet_dInsert_ne _ hw, dGet_dPop_ne hwold]
      exact hs.cm_wti c w h'
  · intro w c h
    have h' : dGet (dInsert (dPop s.ws_to_id old) ws cid) w = some c := h
    show dGet (dInsert s.client_map cid ws) c = some w
    by_cases hw : w = ws
    · subst hw
      rw [dGet_dInsert_self] at h'
      cases h'
      exact dGet_dInsert_self _ _ _
    · rw [dGet_dInsert_ne _ hw] at h'
      have hwold : w ≠ old := by
        intro hww
        subst hww
        rw [dGet_dPop_self hs.wti_nodup] at h'
        cases h'
      rw [dGet_dPop_ne hwold] at h'
      have hc : c ≠ cid := by
        intro hcc
        subst hcc
        have hcm := hs.wti_cm w c h'
        rw [hold] at hcm
        cases hcm
        exact hwold rfl
      rw [dGet_dInsert_ne _ hc]
      exact hs.wti_cm w c h'
  · intro w c h
    have h' : dGet (dInsert (dPop s.ws_to_id old) ws cid) w = some c := h
    show w ∈ s.active_connections.erase old ++ [ws]
    by_cases hw : w = ws
    · subst hw
      exact List.mem_append_right _ (List.mem_singleton.mpr rfl)
    · rw [dGet_dInsert_ne _ hw] at h'
      have hwold : w ≠ old := by
        intro hww
        subst hww
        rw [dGet_dPop_self hs.wti_nodup] at h'
        cases h'
      rw [dGet_dPop_ne hwold] at h'
      exact List.mem_append_left _
        ((List.mem_erase_of_ne hwold).mpr (hs.wti_active w c h'))
  · intro w c h
    have h' : dGet (dInsert (dPop s.ws_to_id old) ws cid) w = some c := h
    by_cases hw : w = ws
    · subst hw
      rw [dGet_dInsert_self] at h'
      cases h'
      exact h3
    · rw [dGet_dInsert_ne _ hw] at h'
      have hwold : w ≠ old := by
        intro hww
        subst hww
        rw [dGet_dPop_self hs.wti_nodup] at h'
        cases h'
      rw [dGet_dPop_ne hwold] at h'
      exact hs.id_truthy w c h'
  · show keysNodup (dInsert s.client_map cid ws)
    exact keysNodup_dInsert _ _ hs.cm_nodup
  · show keysNodup (dInsert (dPop s.ws_to_id old) ws cid)
    exact keysNodup_dInsert _ _ (keysNodup_dPop _ hs.wti_nodup)
  · show (s.active_connections.erase old ++ [ws]).Nodup
    rw [List.nodup_append]
    refine ⟨hs.active_nodup.erase _, List.nodup_singleton _, ?_⟩
    intro a ha hb
    rw [List.mem_singleton] at hb
    subst hb
    exact h1 (List.mem_of_mem_erase ha)

theorem inv_disconnect {s : ConnectionManager} (hs : RegistryInv s) (ws : WS) :
    RegistryInv (disconnect s ws) := by
  cases hwti : dGet s.ws_to_id ws with
  | none =>
      have e : disconnect s ws =
          { active_connections := s.active_connections.erase ws
            client_map := s.client_map
            ws_to_id := s.ws_to_id
            ping_task_running :=
              if (s.active_connections.erase ws).length = 0 then false
              else s.ping_task_running } := by
        simp only [disconnect, hwti]
      rw [e]
      constructor
      · intro c w h
        exact hs.cm_wti c w h
      · intro w c h
        exact hs.wti_cm w c h
      · intro w c h
        have h' : dGet s.ws_to_id w = some c := h
        have hw : w ≠ ws := by
          intro hww
          subst hww
          rw [hwti] at h'
          cases h'
        show w ∈ s.active_connections.erase ws
        exact (List.mem_erase_of_ne hw).mpr (hs.wti_active w c h')
      · intro w c h
        exact hs.id_truthy w c h
      · exact hs.cm_nodup
      · exact hs.wti_nodup
      · exact hs.active_nodup.erase ws
  | some cid =>
      have hcid : cid ≠ "" := hs.id_truthy ws cid hwti
      have hcm : dGet s.client_map cid = some ws := hs.wti_cm ws cid hwti
      have e : disconnect s ws =
          { active_connections := s.active_connections.erase ws
            client_map := dPop s.client_map cid
            ws_to_id := dPop s.ws_to_id ws
            ping_task_running :=
              if (s.active_connections.erase ws).length = 0 then false
              else s.ping_task_running } := by
        simp only [disconnect, hwti, if_neg hcid]
      rw [e]
      constructor
      · intro c w h
        have h' : dGet (dPop s.client_map cid) c = some w := h
        have hc : c ≠ cid := by
          intro hcc
          subst hcc
          rw [dGet_dPop_self hs.cm_nodup] at h'
          cases h'
        rw [dGet_dPop_ne hc] at h'
        have hw : w ≠ ws := by
          intro hww
          subst hww
          have hx := hs.cm_wti c w h'
          rw [hwti] at hx
          cases hx
          exact hc rfl
        show dGet (dPop s.ws_to_id ws) w = some c
        rw [dGet_dPop_ne hw]
        exact hs.cm_wti c w h'
      · intro w c h
        have h' : dGet (dPop s.ws_to_id ws) w = some c := h
        have hw : w ≠ ws := by
          intro hww
          subst hww
          rw [dGet_dPop_self hs.wti_nodup] at h'
          cases h'
        rw [dGet_dPop_ne hw] at h'
        have hc : c ≠ cid := by
          intro hcc
          subst hcc
          have hx := hs.wti_cm w c h'
          rw [hcm] at hx
          cases hx
          exact hw rfl
        show dGet (dPop s.client_map cid) c = some w
        rw [dGet_dPop_ne hc]
        exact hs.wti_cm w c h'
      · intro w c h
        have h' : dGet (dPop s.ws_to_id ws) w = some c := h
        have hw : w ≠ ws := by
          intro hww
          subst hww
          rw [dGet_dPop_self hs.wti_nodup] at h'
          cases h'
        rw [dGet_dPop_ne hw] at h'
        show w ∈ s.active_connections.erase ws
        exact (List.mem_erase_of_ne hw).mpr (hs.wti_active w c h')
      · intro w c h
        have h' : dGet (dPop s.ws_to_id ws) w = some c := h
        have hw : w ≠ ws := by
          intro hww
          subst hww
          rw [dGet_dPop_self hs.wti_nodup] at h'
          cases h'
        rw [dGet_dPop_ne hw] at h'
        exact hs.id_truthy w c h'
      · show keysNodup (dPop s.client_map cid)
        exact keysNodup_dPop _ hs.cm_nodup
      · show keysNodup (dPop s.ws_to_id ws)
        exact keysNodup_dPop _ hs.wti_nodup
      · exact hs.active_nodup.erase ws

theorem inv_foldl_disconnect {l : List WS} :
    ∀ {s : ConnectionManager}, RegistryInv s →
      RegistryInv (l.foldl disconnect s) := by
  induction l with
  | nil => intro s hs; exact hs
  | cons hd t ih => intro s hs; exact ih (inv_disconnect hs hd)

theorem inv_step {s t : ConnectionManager} (hs : RegistryInv s)
    (hstep : Step s t) : RegistryInv t := by
  cases hstep with
  | connect_fresh ws freshId c h1 h2 h3 h4 =>
      exact inv_bind_unbound hs h1 h2 h3 h4
  | connect_with_id ws cid c h1 h2 h3 =>
      cases hold : dGet s.client_map cid with
      | none =>
          have e : (connect s ws (some cid) "" c).1 = bindConn s ws cid := by
            simp only [connect, hold]
          rw [e]
          exact inv_bind_unbound hs h1 h2 hold h3
      | some old =>
          have e : (connect s ws (some cid) "" c).1 = bindConn
              { s with active_connections := s.active_connections.erase old,
                       ws_to_id := dPop s.ws_to_id old } ws cid := by
            simp only [connect, hold]
          rw [e]
          exact inv_bind_takeover hs hold h1 h2 h3
  | disconnect_any ws => exact inv_disconnect hs ws
  | heartbeat sendFails =>
      by_cases hemp : s.active_connections.isEmpty
      · have e : (sendPingToAll s sendFails).1 = s := by
          simp only [sendPingToAll, if_pos hemp]
        rw [e]
        exact hs
      · have e : (sendPingToAll s sendFails).1 =
            (s.active_connections.filter sendFails).foldl disconnect s := by
          simp only [sendPingToAll, if_neg hemp]
        rw [e]
        exact inv_foldl_disconnect hs

theorem inv_init : RegistryInv initManager := by
  constructor
  · intro c w h; cases h
  · intro w c h; cases h
  · intro w c h; cases h
  · intro w c h; cases h
  · exact List.nodup_nil
  · exact List.nodup_nil
  · exact List.nodup_nil

theorem inv_reachable {s : ConnectionManager} (h : Reachable s) :
    RegistryInv s := by
  induction h with
  | init => exact inv_init
  | step _ hstep ih => exact inv_step ih hstep

/-! ### Claim theorems -/

/-- C1: Registry bijection invariant — in every reachable state of the
`ConnectionManager`, `client_map` and `ws_to_id` are mutual inverses, every
connection bound in them is in `active_connections`, and no two distinct live
connections share an identity.  `Reachable` closes over every operation:
connect with a fresh identity, connect with takeover, disconnect, and
heartbeat eviction, so this is exactly preservation by every operation. -/
theorem registry_bijection_reachable (s : ConnectionManager)
    (h : Reachable s) :
    (∀ cid ws, dGet s.client_map cid = some ws ↔ dGet s.ws_to_id ws = some cid)
    ∧ (∀ ws cid, dGet s.ws_to_id ws = some cid → ws ∈ s.active_connections)
    ∧ (∀ cid ws, dGet s.client_map cid = some ws → ws ∈ s.active_connections)
    ∧ (∀ w1 w2 cid, dGet s.ws_to_id w1 = some cid →
        dGet s.ws_to_id w2 = some cid → w1 = w2) := by
  have hi := inv_reachable h
  refine ⟨fun cid ws => ⟨hi.cm_wti cid ws, hi.wti_cm ws cid⟩,
          hi.wti_active, ?_, ?_⟩
  · intro cid ws hg
    exact hi.wti_active ws cid (hi.cm_wti cid ws hg)
  · intro w1 w2 cid hg1 hg2
    have h1 := hi.wti_cm w1 cid hg1
    rw [hi.wti_cm w2 cid hg2] at h1
    cases h1
    rfl

/-- Witness for C1: the state reached by two anonymous connects is reachable
and there the bijection holds at the concrete bindings. -/
theorem registry_bijection_reachable_witness :
    dGet ((connect ((connect initManager 1 none "a" (Except.ok ())).1)
        2 none "b" (Except.ok ())).1).client_map "b" = some 2
    ∧ 1 ∈ ((connect ((connect initManager 1 none "a" (Except.ok ())).1)
        2 none "b" (Except.ok ())).1).active_connections := by
  have r1 : Reachable (connect initManager 1 none "a" (Except.ok ())).1 :=
    Reachable.step Reachable.init
      (Step.connect_fresh initManager 1 "a" (Except.ok ())
        (by decide) (by decide) (by decide) (by decide))
  have r2 : Reachable (connect ((connect initManager 1 none "a"
      (Except.ok ())).1) 2 none "b" (Except.ok ())).1 :=
    Reachable.step r1
      (Step.connect_fresh _ 2 "b" (Except.ok ())
        (by decide) (by decide) (by decide) (by decide))
  have h := registry_bijection_reachable _ r2
  exact ⟨(h.1 "b" 2).mpr (by decide), h.2.1 1 "a" (by decide)⟩

/-- A one-client manager used as a concrete state in witnesses: connection 1
is live and bound to identity "a". -/
def exampleManager : ConnectionManager := ⟨[1], [("a", 1)], [(1, "a")], true⟩

/-- `exampleManager` satisfies the registry invariant (it is the state reached
by one anonymous connect). -/
theorem inv_exampleManager : RegistryInv exampleManager :=
  inv_step inv_init
    (Step.connect_fresh initManager 1 "a" (Except.ok ())
      (by decide) (by decide) (by decide) (by decide))

/-- A two-client manager used as a concrete state in witnesses. -/
def exampleManager2 : ConnectionManager :=
  ⟨[1, 2], [("a", 1), ("b", 2)], [(1, "a"), (2, "b")], true⟩

/-- C2: Takeover — connecting `B` with an identity bound to a live connection
`A` closes `A` (before `B`'s `client_id` envelope is sent), unbinds `A`, binds
`B`; afterwards lookup of the identity yields `B`, never `A`, and at most one
connection is bound to it. -/
theorem takeover_rebinds_identity (s : ConnectionManager) (A B : WS)
    (cid : String) (closeResult : Except String Unit)
    (hinv : RegistryInv s)
    (hA : dGet s.client_map cid = some A)
    (hB1 : B ∉ s.active_connections)
    (hB2 : dGet s.ws_to_id B = none) :
    dGet (connect s B (some cid) "" closeResult).1.client_map cid = some B
    ∧ B ≠ A
    ∧ dGet (connect s B (some cid) "" closeResult).1.ws_to_id A = none
    ∧ A ∉ (connect s B (some cid) "" closeResult).1.active_connections
    ∧ (connect s B (some cid) "" closeResult).2.2 =
        [Effect.close A, Effect.send B (Msg.clientId cid)]
    ∧ (∀ w, dGet (connect s B (some cid) "" closeResult).1.ws_to_id w =
        some cid → w = B) := by
  have hAwti : dGet s.ws_to_id A = some cid := hinv.cm_wti cid A hA
  have hBA : B ≠ A := by
    intro h
    rw [h, hAwti] at hB2
    cases hB2
  have e : connect s B (some cid) "" closeResult =
      (bindConn { s with active_connections := s.active_connections.erase A,
                         ws_to_id := dPop s.ws_to_id A } B cid, cid,
       [Effect.close A, Effect.send B (Msg.clientId cid)]) := by
    simp only [connect, hA]
  rw [e]
  refine ⟨dGet_dInsert_self _ _ _, hBA, ?_, ?_, rfl, ?_⟩
  · show dGet (dInsert (dPop s.ws_to_id A) B cid) A = none
    rw [dGet_dInsert_ne _ (Ne.symm hBA), dGet_dPop_self hinv.wti_nodup]
  · show A ∉ s.active_connections.erase A ++ [B]
    intro hmem
    rcases List.mem_append.mp hmem with hmem | hmem
    · exact ((hinv.active_nodup.mem_erase_iff).mp hmem).1 rfl
    · rw [List.mem_singleton] at hmem
      exact hBA hmem.symm
  · intro w hw
    by_cases hwB : w = B
    · exact hwB
    · have hw' : dGet (dInsert (dPop s.ws_to_id A) B cid) w = some cid := hw
      rw [dGet_dInsert_ne _ hwB] at hw'
      have hwA : w ≠ A := by
        intro hwa
        subst hwa
        rw [dGet_dPop_self hinv.wti_nodup] at hw'
        cases hw'
      rw [dGet_dPop_ne hwA] at hw'
      have := hinv.wti_cm w cid hw'
      rw [hA] at this
      cases this
      exact absurd rfl hwA

/-- Witness for C2: in the one-client manager, connection 2 takes over
identity "a" from connection 1. -/
theorem takeover_rebinds_identity_witness :
    dGet (connect exampleManager 2 (some "a") ""
        (Except.ok ())).1.client_map "a" = some 2
    ∧ (connect exampleManager 2 (some "a") "" (Except.ok ())).2.2 =
        [Effect.close 1, Effect.send 2 (Msg.clientId "a")] := by
  have h := takeover_rebinds_identity exampleManager 1 2 "a" (Except.ok ())
    inv_exampleManager (by decide) (by decide) (by decide)
  exact ⟨h.1, h.2.2.2.2.1⟩

/-- C10: if closing the old connection during a takeover raises, the error is
swallowed by `except Exception: pass` — the resulting state and the remaining
effects are identical to a successful close: the old connection is unbound
from both registry views and the new connection is bound and receives its
`client_id` envelope. -/
theorem takeover_close_failure_swallowed (s : ConnectionManager) (A B : WS)
    (cid err : String)
    (hinv : RegistryInv s)
    (hA : dGet s.client_map cid = some A)
    (hB1 : B ∉ s.active_connections)
    (hB2 : dGet s.ws_to_id B = none) :
    connect s B (some cid) "" (Except.error err) =
      connect s B (some cid) "" (Except.ok ())
    ∧ dGet (connect s B (some cid) "" (Except.error err)).1.client_map cid =
        some B
    ∧ dGet (connect s B (some cid) "" (Except.error err)).1.ws_to_id A = none
    ∧ (∀ c, dGet (connect s B (some cid) "" (Except.error err)).1.client_map c ≠
        some A)
    ∧ Effect.send B (Msg.clientId cid) ∈
        (connect s B (some cid) "" (Except.error err)).2.2 := by
  have hAwti : dGet s.ws_to_id A = some cid := hinv.cm_wti cid A hA
  have hBA : B ≠ A := by
    intro h
    rw [h, hAwti] at hB2
    cases hB2
  have e : connect s B (some cid) "" (Except.error err) =
      (bindConn { s with active_connections := s.active_connections.erase A,
                         ws_to_id := dPop s.ws_to_id A } B cid, cid,
       [Effect.close A, Effect.send B (Msg.clientId cid)]) := by
    simp only [connect, hA]
  refine ⟨rfl, ?_, ?_, ?_, ?_⟩
  · rw [e]
    exact dGet_dInsert_self _ _ _
  · rw [e]
    show dGet (dInsert (dPop s.ws_to_id A) B cid) A = none
    rw [dGet_dInsert_ne _ (Ne.symm hBA), dGet_dPop_self hinv.wti_nodup]
  · intro c
    rw [e]
    show dGet (dInsert s.client_map cid B) c ≠ some A
    intro hc
    by_cases hcc : c = cid
    · subst hcc
      rw [dGet_dInsert_self] at hc
      cases hc
      exact hBA rfl
    · rw [dGet_dInsert_ne _ hcc] at hc
      have h1 := hinv.cm_wti c A hc
      rw [hAwti] at h1
      cases h1
      exact hcc rfl
  · rw [e]
    exact List.mem_cons_of_mem _ (List.mem_singleton.mpr rfl)

/-- Witness for C10: the failing-close takeover at the concrete one-client
manager. -/
theorem takeover_close_failure_swallowed_witness :
    connect exampleManager 2 (some "a") "" (Except.error "socket already closed")
      = connect exampleManager 2 (some "a") "" (Except.ok ())
    ∧ dGet (connect exampleManager 2 (some "a") ""
        (Except.error "socket already closed")).1.client_map "a" = some 2 := by
  have h := takeover_close_failure_swallowed exampleManager 1 2 "a"
    "socket already closed" inv_exampleManager (by decide) (by decide) (by decide)
  exact ⟨h.1, h.2.1⟩

/-- C3: a well-formed command whose receiver is bound is forwarded as the
unmodified validated envelope to the receiver connection and only to it; the
sender gets nothing back synchronously (its connection is not among the
recipients). -/
theorem command_present_receiver_forwarded (mgr : ConnectionManager)
    (data : JObj) (ws recvWs : WS) (ctx : Option String) (vm : CommandMessage)
    (hns : hasKey data "success" = false)
    (hv : validateCommand data = some vm)
    (hr : dGet mgr.client_map vm.receiver = some recvWs)
    (hne : recvWs ≠ ws) :
    command_handler mgr data ws ctx (Except.ok ()) =
      Except.ok (mgr, [Effect.send recvWs (Msg.command vm)])
    ∧ (∀ m : Msg, Effect.send ws m ∉ [Effect.send recvWs (Msg.command vm)]) := by
  constructor
  · simp only [command_handler, hns, Bool.false_eq_true, if_false, hv, hr]
  · intro m hm
    rw [List.mem_singleton] at hm
    injection hm with h1 h2
    exact hne h1.symm

/-- Witness for C3: in the two-client manager, client "a" commands "b". -/
theorem command_present_receiver_forwarded_witness :
    command_handler exampleManager2
      [("client_id", JVal.str "a"), ("receiver", JVal.str "b"),
       ("command", JVal.str "echo"), ("request_id", JVal.str "r1")]
      1 (some "a") (Except.ok ()) =
      Except.ok (exampleManager2, [Effect.send 2 (Msg.command
        { type := "command", client_id := "a", receiver := "b",
          command := "echo", data := none, timestamp := none,
          request_id := some "r1" })]) :=
  (command_present_receiver_forwarded exampleManager2
    [("client_id", JVal.str "a"), ("receiver", JVal.str "b"),
     ("command", JVal.str "echo"), ("request_id", JVal.str "r1")]
    1 2 (some "a")
    { type := "command", client_id := "a", receiver := "b",
      command := "echo", data := none, timestamp := none,
      request_id := some "r1" }
    rfl rfl rfl (by decide)).1

/-- C4 counterexample: a well-formed command carrying the (present) empty
`request_id` `""`, sent to the absent receiver "b", is answered with a
`command_result` whose `request_id` is the placeholder `"default"`, not the
original `""` — Python's `request_id or "default"` treats the empty string
like `None`.  The second conjunct records that the original envelope did
carry `request_id = some ""`. -/
theorem command_absent_receiver_empty_request_id_cex :
    command_handler exampleManager
      [("client_id", JVal.str "a"), ("receiver", JVal.str "b"),
       ("command", JVal.str "run"), ("request_id", JVal.str "")]
      1 (some "a") (Except.ok ()) =
      Except.ok (exampleManager, [Effect.send 1 (Msg.commandResult
        { type := "command", client_id := "a", receiver := "a",
          request_id := "default", success := false, result := none,
          error := some "接收者 'b' 不存在", timestamp := none })])
    ∧ validateCommand
        [("client_id", JVal.str "a"), ("receiver", JVal.str "b"),
         ("command", JVal.str "run"), ("request_id", JVal.str "")] =
      some { type := "command", client_id := "a", receiver := "b",
             command := "run", data := none, timestamp := none,
             request_id := some "" }
    ∧ ("default" : String) ≠ "" :=
  ⟨rfl, rfl, by decide⟩

/-- C4 (amended): a well-formed command from a registered sender to an absent
receiver produces exactly one `command_result` back on the sending connection,
with `success = false`, an `error` naming the missing receiver, `receiver` set
to the sender identity declared in the command's `client_id` field, and
`request_id` equal to the command's `request_id` when that is present and
non-empty, and the placeholder `"default"` when it is absent or empty; no
other connection receives anything. -/
theorem command_absent_receiver_error_result (mgr : ConnectionManager)
    (data : JObj) (ws : WS) (cid : String) (vm : CommandMessage)
    (hns : hasKey data "success" = false)
    (hv : validateCommand data = some vm)
    (habs : dGet mgr.client_map vm.receiver = none) :
    command_handler mgr data ws (some cid) (Except.ok ()) =
      Except.ok (mgr, [Effect.send ws (Msg.commandResult
        { type := "command", client_id := cid, receiver := vm.client_id,
          request_id := pyOr vm.request_id "default", success := false,
          result := none,
          error := some ("接收者 '" ++ vm.receiver ++ "' 不存在"),
          timestamp := vm.timestamp })])
    ∧ (∀ r, vm.request_id = some r → r ≠ "" → pyOr vm.request_id "default" = r)
    ∧ (vm.request_id = none → pyOr vm.request_id "default" = "default") := by
  refine ⟨?_, ?_, ?_⟩
  · simp only [command_handler, hns, Bool.false_eq_true, if_false, hv, habs,
      missingReceiverResult]
  · intro r hr hne
    rw [hr]
    simp [pyOr, hne]
  · intro hr
    rw [hr]
    rfl

/-- Witness for C4 (amended): a command with `request_id = "r9"` to the
absent receiver "b" in the one-client manager. -/
theorem command_absent_receiver_error_result_witness :
    command_handler exampleManager
      [("client_id", JVal.str "a"), ("receiver", JVal.str "b"),
       ("command", JVal.str "run"), ("request_id", JVal.str "r9")]
      1 (some "a") (Except.ok ()) =
      Except.ok (exampleManager, [Effect.send 1 (Msg.commandResult
        { type := "command", client_id := "a", receiver := "a",
          request_id := pyOr (some "r9") "default", success := false,
          result := none, error := some ("接收者 '" ++ "b" ++ "' 不存在"),
          timestamp := none })]) :=
  (command_absent_receiver_error_result exampleManager
    [("client_id", JVal.str "a"), ("receiver", JVal.str "b"),
     ("command", JVal.str "run"), ("request_id", JVal.str "r9")]
    1 "a"
    { type := "command", client_id := "a", receiver := "b",
      command := "run", data := none, timestamp := none,
      request_id := some "r9" }
    rfl rfl rfl).1

/-- C5: result-routing asymmetry — a well-formed `command_result` (a decoded
object with a `success` field) addressed to an absent receiver is silently
dropped (no message to anyone, no error to the sender), while one addressed
to a present receiver is forwarded as the unmodified validated envelope to
that connection only. -/
theorem command_result_asymmetry (mgr : ConnectionManager) (data : JObj)
    (ws : WS) (ctx : Option String) (vm : CommandResultMessage)
    (hs : hasKey data "success" = true)
    (hv : validateCommandResult data = some vm) :
    (dGet mgr.client_map vm.receiver = none →
      command_handler mgr data ws ctx (Except.ok ()) = Except.ok (mgr, []))
    ∧ (∀ target, dGet mgr.client_map vm.receiver = some target →
      command_handler mgr data ws ctx (Except.ok ()) =
        Except.ok (mgr, [Effect.send target (Msg.commandResult vm)])) := by
  constructor
  · intro habs
    simp only [command_handler, hs, if_true, hv, habs]
  · intro target hpres
    simp only [command_handler, hs, if_true, hv, hpres]

/-- Witness for C5: in the two-client manager, a result addressed to the
absent "zz" is dropped and the same result addressed to "a" reaches
connection 1 only. -/
theorem command_result_asymmetry_witness :
    command_handler exampleManager2
      [("client_id", JVal.str "b"), ("receiver", JVal.str "zz"),
       ("request_id", JVal.str "r1"), ("success", JVal.bool true)]
      2 (some "b") (Except.ok ()) = Except.ok (exampleManager2, [])
    ∧ command_handler exampleManager2
      [("client_id", JVal.str "b"), ("receiver", JVal.str "a"),
       ("request_id", JVal.str "r1"), ("success", JVal.bool true)]
      2 (some "b") (Except.ok ()) =
      Except.ok (exampleManager2, [Effect.send 1 (Msg.commandResult
        { type := "command", client_id := "b", receiver := "a",
          request_id := "r1", success := true, result := none,
          error := none, timestamp := none })]) :=
  ⟨(command_result_asymmetry exampleManager2
      [("client_id", JVal.str "b"), ("receiver", JVal.str "zz"),
       ("request_id", JVal.str "r1"), ("success", JVal.bool true)]
      2 (some "b")
      { type := "command", client_id := "b", receiver := "zz",
        request_id := "r1", success := true, result := none,
        error := none, timestamp := none }
      rfl rfl).1 rfl,
   (command_result_asymmetry exampleManager2
      [("client_id", JVal.str "b"), ("receiver", JVal.str "a"),
       ("request_id", JVal.str "r1"), ("success", JVal.bool true)]
      2 (some "b")
      { type := "command", client_id := "b", receiver := "a",
        request_id := "r1", success := true, result := none,
        error := none, timestamp := none }
      rfl rfl).2 1 rfl⟩

/-- Does an effect carry the fallback (`_handle_undefined_message`) envelope,
the one that enumerates the supported kinds? -/
def isFallbackEffect : Effect → Bool
  | Effect.send _ (Msg.undefinedError _ _ _) => true
  | _ => false

/-- C6 counterexample: the frame `"3"` is valid JSON but not a structured
object, so it is *not* routed to the fallback handler — `data.get("type")`
raises `AttributeError`, the outer `except Exception` replies with a plain
`{"type": "error", "detail": str(e)}` envelope, and no reply enumerates the
recognized kinds. -/
theorem fallback_nonobject_cex :
    handle_message exampleManager registeredHandlers
        (Frame.nonObject (JVal.num 3)) 1 =
      (exampleManager,
       [Effect.send 1 (Msg.errorDetail "'int' object has no attribute 'get'")])
    ∧ (handle_message exampleManager registeredHandlers
        (Frame.nonObject (JVal.num 3)) 1).2.all
          (fun e => !(isFallbackEffect e)) = true :=
  ⟨rfl, rfl⟩

/-- C6 (amended): an undecodable frame, and a decoded object whose kind is
not bound to any handler (and is not an unhashable value), are routed to the
fallback handler, which sends exactly one error envelope to the sender naming
the offending kind (or `"unknown"` when the frame had none) and enumerating
the currently recognized kinds; a frame that decodes to a non-object value,
or an object whose `type` value is itself a list or object, instead gets a
single generic error envelope without the enumeration. -/
theorem fallback_routing (s : ConnectionManager) (ws : WS) (raw : String)
    (fields : JObj)
    (hnh : typeUnhashable (jGet fields "type") = false)
    (hnb : handlerLookup registeredHandlers (jGet fields "type") = none) :
    handle_message s registeredHandlers (Frame.decodeError raw) ws =
      (s, [Effect.send ws (Msg.undefinedError (JVal.str "unknown")
        ["client_id", "ping", "pong", "command", "data"]
        (JVal.obj [("raw_message", JVal.str raw)]))])
    ∧ handle_message s registeredHandlers (Frame.object fields) ws =
      (s, [Effect.send ws (Msg.undefinedError
        ((jGet fields "type").getD (JVal.str "unknown"))
        ["client_id", "ping", "pong", "command", "data"]
        (JVal.obj fields))]) := by
  constructor
  · rfl
  · simp only [handle_message, hnh, Bool.false_eq_true, if_false, hnb,
      handleUndefinedMessage]
    rfl

/-- Witness for C6 (amended): a frame with the unbound kind `"bogus"` gets
the enumerating fallback reply. -/
theorem fallback_routing_witness :
    handle_message exampleManager registeredHandlers
        (Frame.object [("type", JVal.str "bogus")]) 1 =
      (exampleManager, [Effect.send 1 (Msg.undefinedError (JVal.str "bogus")
        ["client_id", "ping", "pong", "command", "data"]
        (JVal.obj [("type", JVal.str "bogus")]))]) :=
  (fallback_routing exampleManager 1 "whatever"
    [("type", JVal.str "bogus")] rfl rfl).2

/-- C7: dispatcher containment — whenever the handler bound to an inbound
object frame's kind raises, `handle_message` catches the failure, leaves the
state unchanged, and sends exactly one error envelope carrying the failure's
description back to the originating connection; being a total function, the
dispatch never propagates the failure to the read loop. -/
theorem dispatcher_contains_handler_failure (s : ConnectionManager)
    (handlers : List (String × Handler)) (fields : JObj) (ws : WS)
    (h : Handler) (e : String)
    (hfound : handlerLookup handlers (jGet fields "type") = some h)
    (hraises : h s fields ws (dGet s.ws_to_id ws) = Except.error e) :
    handle_message s handlers (Frame.object fields) ws =
      (s, [Effect.send ws (Msg.errorDetail e)]) := by
  cases hmt : jGet fields "type" with
  | none =>
      rw [hmt] at hfound
      simp [handlerLookup] at hfound
  | some v =>
      cases v with
      | str st =>
          rw [hmt] at hfound
          simp only [handlerLookup] at hfound
          simp only [handle_message, hmt, typeUnhashable, Bool.false_eq_true,
            if_false, handlerLookup, hfound, hraises]
      | null =>
          rw [hmt] at hfound
          simp [handlerLookup] at hfound
      | bool b =>
          rw [hmt] at hfound
          simp [handlerLookup] at hfound
      | num n =>
          rw [hmt] at hfound
          simp [handlerLookup] at hfound
      | arr elems =>
          rw [hmt] at hfound
          simp [handlerLookup] at hfound
      | obj fs =>
          rw [hmt] at hfound
          simp [handlerLookup] at hfound

/-- Witness for C7: a handler that always raises, bound to kind "boom". -/
theorem dispatcher_contains_handler_failure_witness :
    handle_message exampleManager
      [("boom", (fun _ _ _ _ => Except.error "kaput" : Handler))]
      (Frame.object [("type", JVal.str "boom")]) 1 =
      (exampleManager, [Effect.send 1 (Msg.errorDetail "kaput")]) :=
  dispatcher_contains_handler_failure exampleManager
    [("boom", (fun _ _ _ _ => Except.error "kaput" : Handler))]
    [("type", JVal.str "boom")] 1
    (fun _ _ _ _ => Except.error "kaput") "kaput" rfl rfl

theorem filter_eq_singleton_of_unique {l : List WS} {w : WS} {p : WS → Bool}
    (hnd : l.Nodup) (hw : w ∈ l) (hp : ∀ x, p x = true ↔ x = w) :
    l.filter p = [w] := by
  induction l with
  | nil => cases hw
  | cons hd t ih =>
      rw [List.nodup_cons] at hnd
      rcases List.mem_cons.mp hw with h | h
      · subst h
        rw [List.filter_cons_of_pos ((hp w).mpr rfl)]
        have ht : t.filter p = [] := by
          rw [List.filter_eq_nil_iff]
          intro a ha hpa
          rw [(hp a).mp hpa] at ha
          exact hnd.1 ha
        rw [ht]
      · have hhd : ¬ p hd = true := by
          intro hphd
          rw [(hp hd).mp hphd] at hnd
          exact hnd.1 h
        rw [List.filter_cons_of_neg hhd]
        exact ih hnd.2 h

/-- C8: one heartbeat cycle over a registry with several live connections, in
which sending to exactly one connection `w` fails: a ping envelope is
sent (or attempted) to every connection of the snapshot, in order, with its
pre-removal binding — the removals happen only after the full iteration —
and the resulting state is exactly `disconnect` of `w` alone: every other
connection's binding is unchanged and the heartbeat task keeps running. -/
theorem heartbeat_single_failure (s : ConnectionManager) (w w' : WS)
    (sendFails : WS → Bool)
    (hw : w ∈ s.active_connections)
    (hnd : s.active_connections.Nodup)
    (hfail : ∀ x, sendFails x = true ↔ x = w)
    (hrun : s.ping_task_running = true)
    (hw' : w' ∈ s.active_connections) (hww' : w' ≠ w) :
    (sendPingToAll s sendFails).2 =
      s.active_connections.map (fun x =>
        if sendFails x then
          Effect.sendFailed x (Msg.pingPong "ping" (dGet s.ws_to_id x))
        else Effect.send x (Msg.pingPong "ping" (dGet s.ws_to_id x)))
    ∧ (sendPingToAll s sendFails).1 = disconnect s w
    ∧ (sendPingToAll s sendFails).1.ping_task_running = true
    ∧ (∀ x, x ≠ w →
        dGet (sendPingToAll s sendFails).1.ws_to_id x = dGet s.ws_to_id x) := by
  have hne : ¬ s.active_connections.isEmpty := by
    intro hemp
    rw [List.isEmpty_iff] at hemp
    rw [hemp] at hw
    cases hw
  have e : sendPingToAll s sendFails =
      ((s.active_connections.filter sendFails).foldl disconnect s,
       s.active_connections.map (fun x =>
        if sendFails x then
          Effect.sendFailed x (Msg.pingPong "ping" (dGet s.ws_to_id x))
        else Effect.send x (Msg.pingPong "ping" (dGet s.ws_to_id x)))) := by
    simp only [sendPingToAll, if_neg hne]
  have hfilter : s.active_connections.filter sendFails = [w] :=
    filter_eq_singleton_of_unique hnd hw hfail
  have estate : (sendPingToAll s sendFails).1 = disconnect s w := by
    rw [e, hfilter]
    rfl
  have hmem : w' ∈ s.active_connections.erase w :=
    (List.mem_erase_of_ne hww').mpr hw'
  have hlen : ¬ (s.active_connections.erase w).length = 0 := by
    intro h0
    rw [List.length_eq_zero] at h0
    rw [h0] at hmem
    cases hmem
  refine ⟨by rw [e], estate, ?_, ?_⟩
  · rw [estate]
    cases hg : dGet s.ws_to_id w with
    | none =>
        simp only [disconnect, hg]
        rw [if_neg hlen]
        exact hrun
    | some cid =>
        by_cases hc : cid = ""
        · simp only [disconnect, hg, if_pos hc]
          rw [if_neg hlen]
          exact hrun
        · simp only [disconnect, hg, if_neg hc]
          rw [if_neg hlen]
          exact hrun
  · intro x hx
    rw [estate]
    cases hg : dGet s.ws_to_id w with
    | none => simp only [disconnect, hg]
    | some cid =>
        by_cases hc : cid = ""
        · simp only [disconnect, hg, if_pos hc]
        · simp only [disconnect, hg, if_neg hc]
          exact dGet_dPop_ne hx

/-- Witness for C8: the two-client manager, where pinging connection 1
fails: connection 2 keeps its binding and the monitor keeps running. -/
theorem heartbeat_single_failure_witness :
    (sendPingToAll exampleManager2 (fun x => x == 1)).2 =
      [Effect.sendFailed 1 (Msg.pingPong "ping" (some "a")),
       Effect.send 2 (Msg.pingPong "ping" (some "b"))]
    ∧ (sendPingToAll exampleManager2 (fun x => x == 1)).1 =
        disconnect exampleManager2 1
    ∧ (sendPingToAll exampleManager2 (fun x => x == 1)).1.ping_task_running =
        true
    ∧ dGet (sendPingToAll exampleManager2
        (fun x => x == 1)).1.ws_to_id 2 = dGet exampleManager2.ws_to_id 2 := by
  have h := heartbeat_single_failure exampleManager2 1 2 (fun x => x == 1)
    (by decide) (by decide) (by intro x; simp) rfl (by decide) (by decide)
  exact ⟨by rw [h.1]; rfl, h.2.1, h.2.2.1, h.2.2.2 2 (by decide)⟩

/-- C9: ping/pong behaviour through the dispatcher — a well-formed inbound
`ping` frame from a registered connection yields exactly one `pong` whose
`client_id` is the sender's current identity, with no other send and no
registry mutation; an inbound `pong` frame (well-formed or not) never
produces an outbound message and never mutates the registry. -/
theorem ping_pong_behaviour (s : ConnectionManager) (ws : WS) (cid : String)
    (pingData pongData : JObj)
    (hreg : dGet s.ws_to_id ws = some cid)
    (hping : jGet pingData "type" = some (JVal.str "ping"))
    (hvalid : (validatePingPong pingData).isSome = true)
    (hpong : jGet pongData "type" = some (JVal.str "pong")) :
    handle_message s registeredHandlers (Frame.object pingData) ws =
      (s, [Effect.send ws (Msg.pingPong "pong" (some cid))])
    ∧ handle_message s registeredHandlers (Frame.object pongData) ws =
      (s, []) := by
  constructor
  · obtain ⟨v, hv⟩ := Option.isSome_iff_exists.mp hvalid
    simp only [handle_message, hping, typeUnhashable, Bool.false_eq_true,
      if_false, handlerLookup,
      show dGet registeredHandlers "ping" = some ping_handler from rfl,
      ping_handler, hv, hreg]
  · simp only [handle_message, hpong, typeUnhashable, Bool.false_eq_true,
      if_false, handlerLookup,
      show dGet registeredHandlers "pong" = some pong_handler from rfl]
    cases hv : validatePingPong pongData <;> simp only [pong_handler, hv]

/-- Witness for C9: a minimal ping and a malformed pong in the one-client
manager. -/
theorem ping_pong_behaviour_witness :
    handle_message exampleManager registeredHandlers
        (Frame.object [("type", JVal.str "ping")]) 1 =
      (exampleManager, [Effect.send 1 (Msg.pingPong "pong" (some "a"))])
    ∧ handle_message exampleManager registeredHandlers
        (Frame.object [("type", JVal.str "pong"),
                       ("client_id", JVal.num 7)]) 1 =
      (exampleManager, []) :=
  ping_pong_behaviour exampleManager 1 "a"
    [("type", JVal.str "ping")]
    [("type", JVal.str "pong"), ("client_id", JVal.num 7)]
    rfl rfl rfl rfl
